import Mathlib

/-!
Verification of `scripts/review.py`, a review-staging helper.

The Python source is shallowly embedded with every external effect made
explicit.  Subprocess invocations of the version-control binary are modelled
by an adapter function `List String → GitResult`; filesystem reads (the mode
marker, the alias table, the active task list) become parameters; filesystem
writes and process launches become an explicit `Effect` trace.  Python string
operations (`strip`, `split`, `lower`, slicing, `in`, `re.search` on the two
literal markers, `re.match` on the grep output shape) are re-implemented on
`List Char` by structural recursion so that every definition evaluates inside
the kernel.
-/

/-- Whitespace characters of Python's `str.strip` and `\s` (ASCII range). -/
def pyIsSpace (c : Char) : Bool :=
  c = ' ' || c = '\t' || c = '\n' || c = '\r' || c = '\x0b' || c = '\x0c'

/-- Strip leading and trailing whitespace from a character list. -/
def pyStripL (l : List Char) : List Char :=
  ((l.dropWhile pyIsSpace).reverse.dropWhile pyIsSpace).reverse

/-- Python `str.strip()`. -/
def pyStrip (s : String) : String :=
  String.mk (pyStripL s.data)

/-- Split a character list on a single separator character, keeping empty
pieces, like Python `str.split(sep)` with a one-character separator. -/
def splitOnChar (sep : Char) : List Char → List (List Char)
  | [] => [[]]
  | c :: rest =>
    match splitOnChar sep rest with
    | [] => [[]]
    | h :: t => if c = sep then [] :: h :: t else (c :: h) :: t

/-- Python `str.split(sep)` at the `String` level. -/
def pySplit (sep : Char) (s : String) : List String :=
  (splitOnChar sep s.data).map String.mk

/-- Python `sep.join(parts)`. -/
def joinWith (sep : String) : List String → String
  | [] => ""
  | [x] => x
  | x :: y :: rest => x ++ sep ++ joinWith sep (y :: rest)

/-- Python `str.lower()` (ASCII case folding, enough for the mode marker). -/
def pyLower (s : String) : String :=
  String.mk (s.data.map Char.toLower)

/-- Boolean prefix test on character lists. -/
def startsL : List Char → List Char → Bool
  | [], _ => true
  | _ :: _, [] => false
  | p :: ps, c :: cs => p = c && startsL ps cs

/-- Python substring containment `pat in s`, on character lists. -/
def occursB (pat : List Char) : List Char → Bool
  | [] => pat.isEmpty
  | c :: rest => startsL pat (c :: rest) || occursB pat rest

/-- Python `str.startswith`. -/
def pyStartsWith (pre s : String) : Bool :=
  startsL pre.data s.data

/-- Python string slice `s[:n]`. -/
def takeS (n : Nat) (s : String) : String :=
  String.mk (s.data.take n)

/-- Value of a decimal digit string. -/
def digitsToNat (l : List Char) : Nat :=
  l.foldl (fun n c => 10 * n + (c.toNat - 48)) 0

/-- Python `int(...)` on an optionally signed decimal string (the only shapes
`git rev-list --count` can produce); `none` models the `ValueError` raised on
anything else. -/
def pyInt? (s : String) : Option Int :=
  match s.data with
  | [] => none
  | '-' :: ds => if !ds.isEmpty && ds.all Char.isDigit then some (-(digitsToNat ds : Int)) else none
  | '+' :: ds => if !ds.isEmpty && ds.all Char.isDigit then some ((digitsToNat ds : Int)) else none
  | ds => if ds.all Char.isDigit then some ((digitsToNat ds : Int)) else none

/-- Model of `re.search(marker + "\\s*(.*)$", s)` for a literal `marker`: scan
left to right for the first occurrence of the marker and return the rest of
the line after it, with leading whitespace dropped. -/
def reSearchAfter (marker : List Char) : List Char → Option (List Char)
  | [] => if marker.isEmpty then some [] else none
  | c :: rest =>
    if startsL marker (c :: rest) then
      some (((c :: rest).drop marker.length).dropWhile pyIsSpace)
    else
      reSearchAfter marker rest

/-- Result of one `subprocess.run` invocation (both the version-control
adapter and the text-search tool return this shape). -/
structure GitResult where
  returncode : Int
  stdout : String
  stderr : String
deriving DecidableEq

/-- Observable side effects of the editor dispatcher. -/
inductive Effect where
  | launch (cmdParts : List String)
  | mkStateDir
  | writeCommands (content : String)
deriving DecidableEq

/-- One result record as produced by the strategies and the stack reporter.
Python returns dicts with varying keys: absent optional keys are `none`,
absent list keys are `[]`, absent string keys are `""`. -/
structure ReviewResult where
  status : String := ""
  error : Option String := none
  repo : String := ""
  mode : Option String := none
  branch : Option String := none
  base : Option String := none
  head : Option String := none
  files : List String := []
  file_count : Option Nat := none
  merge_base : Option String := none
  commit_count : Option Int := none
  commits : List String := []
  count : Option Nat := none
  stats : Option String := none
deriving DecidableEq

/-- A command invocation: its result record, the editor-dispatch effects it
performed, and the version-control invocations it made, in order. -/
structure Outcome where
  result : ReviewResult := {}
  effects : List Effect := []
  gitCalls : List (List String) := []
deriving DecidableEq

/-- `get_vscode_mode`: the mode-marker file content (if the file exists),
trimmed and lowercased; anything unrecognised defaults to `remote`. -/
def get_vscode_mode (modeFile : Option String) : String :=
  match modeFile with
  | some content =>
    let mode := pyLower (pyStrip content)
    if mode = "local" ∨ mode = "remote" then mode else "remote"
  | none => "remote"

/-- `open_in_vscode`: returns the effect trace instead of performing it. -/
def open_in_vscode (modeFile : Option String) (files : List String)
    (new_window : Bool) : List Effect :=
  if files = [] then []
  else
    let cmd_parts := ["code"] ++ (if new_window then ["--new-window"] else []) ++ files
    let cmd := joinWith " " cmd_parts
    if get_vscode_mode modeFile = "local" then
      [Effect.launch cmd_parts]
    else
      [Effect.mkStateDir, Effect.writeCommands (cmd ++ "\n")]

/-- One row of the alias table: `| alias | path | notes |` yields its first
two cells when well formed. -/
def parseRow (line : String) : Option (String × String) :=
  let parts := (pySplit '|' line).map pyStrip
  if parts.length ≥ 3 then
    let aliasName := parts.getD 1 ""
    let path := parts.getD 2 ""
    if aliasName ≠ "" ∧ path ≠ "" ∧ ¬ pyStartsWith "---" aliasName then some (aliasName, path)
    else none
  else none

/-- Python dict assignment `d[k] = v`: overwrite in place when the key is
present, append otherwise. -/
def dictInsert (d : List (String × String)) (k v : String) : List (String × String) :=
  if d.any (fun q => q.1 == k) then d.map (fun q => if q.1 == k then (k, v) else q)
  else d ++ [(k, v)]

/-- Python dict lookup. -/
def dictGet (d : List (String × String)) (k : String) : Option String :=
  (d.find? (fun q => q.1 == k)).map Prod.snd

/-- The line loop of `parse_directory_map`. -/
def pdmLoop : List String → Bool → List (String × String) → List (String × String)
  | [], _, acc => acc
  | line :: rest, inTable, acc =>
    if occursB "| Alias |".data line.data then pdmLoop rest true acc
    else if inTable then
      if pyStartsWith "|---" line then pdmLoop rest true acc
      else if ¬ pyStartsWith "|" line then acc
      else
        match parseRow line with
        | some (aliasName, path) => pdmLoop rest true (dictInsert acc aliasName path)
        | none => pdmLoop rest true acc
    else pdmLoop rest false acc

/-- `parse_directory_map`: the alias table parsed from the document, empty
when the document is absent. -/
def parse_directory_map (doc : Option String) : List (String × String) :=
  match doc with
  | none => []
  | some content => pdmLoop (pySplit '\n' content) false []

/-- The rows the table loop accepts, in document order (device for stating
the overwrite behaviour of `pdmLoop`). -/
def pdmRowsLoop : List String → Bool → List (String × String)
  | [], _ => []
  | line :: rest, inTable =>
    if occursB "| Alias |".data line.data then pdmRowsLoop rest true
    else if inTable then
      if pyStartsWith "|---" line then pdmRowsLoop rest true
      else if ¬ pyStartsWith "|" line then []
      else
        match parseRow line with
        | some (aliasName, path) => (aliasName, path) :: pdmRowsLoop rest true
        | none => pdmRowsLoop rest true
    else pdmRowsLoop rest false

/-- Accepted rows of the alias-table document, in document order. -/
def pdmRows (doc : Option String) : List (String × String) :=
  match doc with
  | none => []
  | some content => pdmRowsLoop (pySplit '\n' content) false

/-- `resolve_repo`: alias resolution.  `aliases` is the parsed table lookup,
`pathExists` and `canon` model `Path.exists` and `Path.resolve`, `taskRepos`
the active task's repository list, `cwd` the working directory, and
`Except.error` models the `ValueError` raised for an unknown alias. -/
def resolve_repo (aliases : String → Option String) (pathExists : String → Bool)
    (canon : String → String) (taskRepos : List String) (cwd : String)
    (al : Option String) : Except String String :=
  let a := match al with | some s => s | none => ""
  if a ≠ "" then
    match aliases a with
    | some p => Except.ok p
    | none =>
      if pathExists a then Except.ok (canon a)
      else Except.error ("Unknown repo alias: " ++ a)
  else
    match taskRepos with
    | first_repo :: _ =>
      match aliases first_repo with
      | some p => Except.ok p
      | none => Except.ok cwd
    | [] => Except.ok cwd

/-- The repeated Python idiom `[f for f in out.strip().split("\n") if f]`. -/
def gitLines (out : String) : List String :=
  (pySplit '\n' (pyStrip out)).filter (fun f => f ≠ "")

/-- `cmd_incremental`: stage a review of the last `n` commits.  `git` is the
version-control adapter and `modeFile` the dispatcher's mode-marker content. -/
def cmd_incremental (git : List String → GitResult) (modeFile : Option String)
    (repo : String) (n : Int) : Outcome :=
  let base := "HEAD~" ++ toString n
  let diffRes := git ["diff", "--name-only", base]
  if diffRes.returncode ≠ 0 then
    { result := { status := "error", error := some (pyStrip diffRes.stderr), repo := repo },
      gitCalls := [["diff", "--name-only", base]] }
  else
    let files := gitLines diffRes.stdout
    if files = [] then
      { result := { status := "nothing_to_review", base := some base, repo := repo },
        gitCalls := [["diff", "--name-only", base]] }
    else
      let branchRes := git ["branch", "--show-current"]
      let current_branch := if branchRes.returncode = 0 then pyStrip branchRes.stdout else "unknown"
      let full_paths := files.map (fun f => repo ++ "/" ++ f)
      { result := { status := "staged", mode := some (get_vscode_mode modeFile), repo := repo,
                    branch := some current_branch, base := some base, head := some "HEAD",
                    files := files, file_count := some files.length },
        effects := open_in_vscode modeFile full_paths true,
        gitCalls := [["diff", "--name-only", base], ["branch", "--show-current"]] }

/-- `cmd_milestone`: stage a review of all changes since the merge base with
`branch`.  Returns `none` exactly when the `int()` conversion of the commit
count raises (possible only if `rev-list --count` exits 0 with non-numeric
output); every other path returns a record. -/
def cmd_milestone (git : List String → GitResult) (modeFile : Option String)
    (repo : String) (branch : String) : Option Outcome :=
  let mbRes := git ["merge-base", "HEAD", branch]
  if mbRes.returncode ≠ 0 then
    some { result := { status := "error",
                       error := some ("Could not find merge base with " ++ branch),
                       repo := repo },
           gitCalls := [["merge-base", "HEAD", branch]] }
  else
    let merge_base := pyStrip mbRes.stdout
    let diffRes := git ["diff", "--name-only", merge_base]
    let files := gitLines diffRes.stdout
    let cntRes := git ["rev-list", "--count", merge_base ++ "..HEAD"]
    match (if cntRes.returncode = 0 then pyInt? (pyStrip cntRes.stdout) else some 0 : Option Int) with
    | none => none
    | some commit_count =>
      let branchRes := git ["branch", "--show-current"]
      let current_branch := if branchRes.returncode = 0 then pyStrip branchRes.stdout else "unknown"
      let calls := [["merge-base", "HEAD", branch], ["diff", "--name-only", merge_base],
                    ["rev-list", "--count", merge_base ++ "..HEAD"], ["branch", "--show-current"]]
      if files = [] then
        some { result := { status := "nothing_to_review", base := some branch,
                           merge_base := some (takeS 8 merge_base), repo := repo },
               gitCalls := calls }
      else
        some { result := { status := "staged", mode := some (get_vscode_mode modeFile),
                           repo := repo, branch := some current_branch, base := some branch,
                           merge_base := some (takeS 8 merge_base), files := files,
                           file_count := some files.length, commit_count := some commit_count },
               effects := open_in_vscode modeFile (files.map (fun f => repo ++ "/" ++ f)) true,
               gitCalls := calls }

/-- `cmd_stack`: commit-stack report since the merge base with `branch`. -/
def cmd_stack (git : List String → GitResult) (repo : String) (branch : String) : Outcome :=
  let mbRes := git ["merge-base", "HEAD", branch]
  if mbRes.returncode ≠ 0 then
    { result := { status := "error",
                  error := some ("Could not find merge base with " ++ branch),
                  repo := repo },
      gitCalls := [["merge-base", "HEAD", branch]] }
  else
    let merge_base := pyStrip mbRes.stdout
    let logRes := git ["log", "--oneline", merge_base ++ "..HEAD"]
    let commits := gitLines logRes.stdout
    let branchRes := git ["branch", "--show-current"]
    let current_branch := if branchRes.returncode = 0 then pyStrip branchRes.stdout else "unknown"
    let statRes := git ["diff", "--stat", merge_base]
    let stats := if statRes.returncode = 0 then pyStrip statRes.stdout else ""
    { result := { repo := repo, branch := some current_branch, base := some branch,
                  merge_base := some (takeS 8 merge_base), commits := commits,
                  count := some commits.length, stats := some stats },
      gitCalls := [["merge-base", "HEAD", branch], ["log", "--oneline", merge_base ++ "..HEAD"],
                   ["branch", "--show-current"], ["diff", "--stat", merge_base]] }

/-- The part of the grep-line pattern after the optional `./` prefix:
`([^:]+):(\d+):(.*)$`. -/
def grepCore (l : List Char) : Option (String × Nat × String) :=
  let p1 := l.takeWhile (fun c => c ≠ ':')
  let r1 := l.dropWhile (fun c => c ≠ ':')
  if p1 = [] then none
  else
    match r1 with
    | ':' :: r2 =>
      let ds := r2.takeWhile Char.isDigit
      let r3 := r2.dropWhile Char.isDigit
      if ds = [] then none
      else
        match r3 with
        | ':' :: rest => some (String.mk p1, digitsToNat ds, String.mk rest)
        | _ => none
    | _ => none

/-- Model of `re.match(r"^\.?/?([^:]+):(\d+):(.*)$", line)`, including the
backtracking order of the two optional prefix characters. -/
def parseGrepLine (line : String) : Option (String × Nat × String) :=
  let l := line.data
  let afterDot : List (List Char) :=
    match l with
    | '.' :: rest => [rest, l]
    | _ => [l]
  let cands : List (List Char) :=
    afterDot.flatMap (fun m =>
      match m with
      | '/' :: rest => [rest, m]
      | _ => [m])
  cands.findSome? grepCore

/-- One structured annotation comment. -/
structure CommentRecord where
  file : String
  relative_path : String
  line : Nat
  raw : String
  comment : String
  yolo : Bool
deriving DecidableEq

/-- Marker classification of one grep-matched line's content: `RVWY:` is
checked first, then `RVW:`. -/
def classifyContent (content : String) : Option (String × Bool) :=
  match reSearchAfter "RVWY:".data content.data with
  | some t => some (String.mk t, true)
  | none =>
    match reSearchAfter "RVW:".data content.data with
    | some t => some (String.mk t, false)
    | none => none

/-- Processing of one line of grep output inside `cmd_comments`. -/
def processGrepLine (repo line : String) : Option CommentRecord :=
  match parseGrepLine line with
  | none => none
  | some (filepath, lineno, rest) =>
    let content := pyStrip rest
    match classifyContent content with
    | none => none
    | some (t, y) =>
      some { file := repo ++ "/" ++ filepath, relative_path := filepath,
             line := lineno, raw := content, comment := t, yolo := y }

/-- Result record of the comment scanner. -/
structure CommentsResult where
  repo : String
  count : Nat
  comments : List CommentRecord
deriving DecidableEq

/-- `cmd_comments`: collect annotation comments from the text-search output.
The search tool's exit code and stderr are never consulted. -/
def cmd_comments (repo : String) (grepResult : GitResult) : CommentsResult :=
  let comments := (pySplit '\n' (pyStrip grepResult.stdout)).filterMap
    (fun line => if line = "" then none else processGrepLine repo line)
  { repo := repo, count := comments.length, comments := comments }

/-! Concrete adapters used to evaluate the commands at specific repository
states. -/

/-- Adapter: merge base resolves, the diff at the merge base fails with a
non-zero exit and empty stdout, everything else succeeds. -/
def gitDiffFails : List String → GitResult := fun args =>
  if args = ["merge-base", "HEAD", "main"] then
    { returncode := 0, stdout := "abcdef1234567890\n", stderr := "" }
  else if args = ["diff", "--name-only", "abcdef1234567890"] then
    { returncode := 128, stdout := "", stderr := "fatal: bad object\n" }
  else if args = ["rev-list", "--count", "abcdef1234567890..HEAD"] then
    { returncode := 0, stdout := "3\n", stderr := "" }
  else { returncode := 0, stdout := "", stderr := "" }

/-- Adapter: every invocation succeeds with empty output. -/
def gitEmpty : List String → GitResult := fun _ =>
  { returncode := 0, stdout := "", stderr := "" }

/-- Adapter: every invocation fails with a recognisable stderr. -/
def gitFails : List String → GitResult := fun _ =>
  { returncode := 1, stdout := "", stderr := " boom \n" }

/-- Adapter: a fully successful repository state with two changed files and
two commits since the merge base. -/
def gitOk : List String → GitResult := fun args =>
  if args = ["merge-base", "HEAD", "main"] then
    { returncode := 0, stdout := "1234567890abcdef\n", stderr := "" }
  else if args = ["diff", "--name-only", "1234567890abcdef"] then
    { returncode := 0, stdout := "src/a.txt\nsrc/b.txt\n", stderr := "" }
  else if args = ["rev-list", "--count", "1234567890abcdef..HEAD"] then
    { returncode := 0, stdout := "2\n", stderr := "" }
  else if args = ["branch", "--show-current"] then
    { returncode := 0, stdout := "feature\n", stderr := "" }
  else { returncode := 0, stdout := "", stderr := "" }

/-- An alias-table document in which the alias `iree` appears in two rows. -/
def dupDoc : String :=
  "| Alias | Path | Notes |\n|---|---|---|\n| iree | /old | x |\n| iree | /new | y |\nend"

/-! Helper lemmas about the character-level machinery. -/

theorem startsL_append_self : ∀ (m t : List Char), startsL m (m ++ t) = true
  | [], _ => rfl
  | p :: ps, t => by simp [startsL, startsL_append_self ps t]

theorem eq_append_of_startsL : ∀ (m l : List Char), startsL m l = true → ∃ t, l = m ++ t
  | [], l, _ => ⟨l, rfl⟩
  | _ :: _, [], h => by simp [startsL] at h
  | p :: ps, c :: cs, h => by
    simp only [startsL, Bool.and_eq_true, decide_eq_true_eq] at h
    obtain ⟨rfl, h2⟩ := h
    obtain ⟨t, rfl⟩ := eq_append_of_startsL ps cs h2
    exact ⟨t, rfl⟩

theorem dropWhile_length_le {α : Type} (p : α → Bool) :
    ∀ (l : List α), (l.dropWhile p).length ≤ l.length
  | [] => Nat.le_refl 0
  | c :: l => by
    by_cases h : p c
    · rw [List.dropWhile_cons_of_pos h]
      exact Nat.le_trans (dropWhile_length_le p l) (Nat.le_succ _)
    · rw [List.dropWhile_cons_of_neg h]

theorem dropWhile_idem {α : Type} (p : α → Bool) :
    ∀ (l : List α), (l.dropWhile p).dropWhile p = l.dropWhile p
  | [] => rfl
  | c :: l => by
    by_cases h : p c
    · rw [List.dropWhile_cons_of_pos h]
      exact dropWhile_idem p l
    · rw [List.dropWhile_cons_of_neg h, List.dropWhile_cons_of_neg h]

theorem dropWhile_eq_self_of_append {α : Type} (p : α → Bool) :
    ∀ (x y : List α), (x ++ y).dropWhile p = x ++ y → x.dropWhile p = x
  | [], _, _ => rfl
  | c :: x, y, h => by
    by_cases hp : p c
    · exfalso
      rw [List.cons_append, List.dropWhile_cons_of_pos hp] at h
      have hle := dropWhile_length_le p (x ++ y)
      rw [h] at hle
      simp at hle
    · exact List.dropWhile_cons_of_neg hp

theorem noTrail_pyStripL (l : List Char) :
    (pyStripL l).reverse.dropWhile pyIsSpace = (pyStripL l).reverse := by
  unfold pyStripL
  rw [List.reverse_reverse]
  exact dropWhile_idem pyIsSpace _

theorem noTrail_suffix (pre rest : List Char)
    (h : (pre ++ rest).reverse.dropWhile pyIsSpace = (pre ++ rest).reverse) :
    rest.reverse.dropWhile pyIsSpace = rest.reverse := by
  rw [List.reverse_append] at h
  exact dropWhile_eq_self_of_append pyIsSpace rest.reverse pre.reverse h

theorem pyStripL_eq_dropWhile (rest : List Char)
    (h : rest.reverse.dropWhile pyIsSpace = rest.reverse) :
    pyStripL rest = rest.dropWhile pyIsSpace := by
  unfold pyStripL
  have h3 := h
  rw [← List.takeWhile_append_dropWhile pyIsSpace rest] at h3
  have h2 := noTrail_suffix _ _ h3
  rw [h2, List.reverse_reverse]

theorem reSearchAfter_append_self (m : List Char) (hm : m ≠ []) (rest : List Char) :
    reSearchAfter m (m ++ rest) = some (rest.dropWhile pyIsSpace) := by
  cases m with
  | nil => exact absurd rfl hm
  | cons a m2 =>
    have h1 : startsL (a :: m2) ((a :: m2) ++ rest) = true := startsL_append_self _ _
    rw [List.cons_append] at h1 ⊢
    simp only [reSearchAfter, h1, if_true]
    rw [← List.cons_append, List.drop_left]

theorem reSearchAfter_first (m : List Char) (hm : m ≠ []) :
    ∀ (pre rest : List Char),
      (∀ p2 r2, pre ++ (m ++ rest) = p2 ++ (m ++ r2) → pre.length ≤ p2.length) →
      reSearchAfter m (pre ++ (m ++ rest)) = some (rest.dropWhile pyIsSpace) := by
  intro pre
  induction pre with
  | nil =>
    intro rest _
    rw [List.nil_append]
    exact reSearchAfter_append_self m hm rest
  | cons c pre ih =>
    intro rest hmin
    rw [List.cons_append]
    have hfalse : startsL m (c :: (pre ++ (m ++ rest))) = false := by
      cases hb : startsL m (c :: (pre ++ (m ++ rest))) with
      | false => rfl
      | true =>
        obtain ⟨t, ht⟩ := eq_append_of_startsL m _ hb
        have h0 := hmin [] t (by rw [List.nil_append, ← ht, List.cons_append])
        simp at h0
    simp only [reSearchAfter, hfalse, Bool.false_eq_true, if_false]
    exact ih rest (fun p2 r2 h => by
      have h5 := hmin (c :: p2) r2 (by simp only [List.cons_append, h])
      simpa using h5)

theorem reSearchAfter_none (m : List Char) (hm : m ≠ []) :
    ∀ (l : List Char), (∀ p2 r2, l ≠ p2 ++ (m ++ r2)) → reSearchAfter m l = none := by
  intro l
  induction l with
  | nil =>
    intro _
    cases m with
    | nil => exact absurd rfl hm
    | cons a m2 => rfl
  | cons c t ih =>
    intro hno
    have hfalse : startsL m (c :: t) = false := by
      cases hb : startsL m (c :: t) with
      | false => rfl
      | true =>
        obtain ⟨r, hr⟩ := eq_append_of_startsL m _ hb
        exact absurd (by rw [hr, List.nil_append]) (hno [] r)
    simp only [reSearchAfter, hfalse, Bool.false_eq_true, if_false]
    exact ih (fun p2 r2 h => hno (c :: p2) r2 (by rw [List.cons_append, h]))

/-! Lemmas about the Python-dict model and the alias-table loop. -/

theorem find?_map_overwrite (k v : String) :
    ∀ (d : List (String × String)), d.any (fun q => q.1 == k) = true →
      (d.map (fun q => if q.1 == k then (k, v) else q)).find? (fun q => q.1 == k) = some (k, v)
  | [], h => by simp at h
  | q :: d, h => by
    rw [List.map_cons]
    by_cases hq : (q.1 == k) = true
    · rw [if_pos hq]
      simp [List.find?_cons]
    · rw [if_neg hq]
      have hq2 : (q.1 == k) = false := by simpa using hq
      simp only [List.find?_cons, hq2]
      simp only [List.any_cons, hq2, Bool.false_or] at h
      exact find?_map_overwrite k v d h

theorem find?_map_ne (k v a : String) (hne : a ≠ k) :
    ∀ (d : List (String × String)),
      (d.map (fun q => if q.1 == k then (k, v) else q)).find? (fun q => q.1 == a) =
        d.find? (fun q => q.1 == a)
  | [] => rfl
  | q :: d => by
    have hka : (k == a) = false := beq_eq_false_iff_ne.mpr (fun heq => hne heq.symm)
    rw [List.map_cons]
    by_cases hq : (q.1 == k) = true
    · have hk : q.1 = k := by simpa using hq
      rw [if_pos hq]
      simp only [List.find?_cons, hk, hka]
      exact find?_map_ne k v a hne d
    · rw [if_neg hq]
      cases hqa : (q.1 == a) with
      | true => simp only [List.find?_cons, hqa]
      | false =>
        simp only [List.find?_cons, hqa]
        exact find?_map_ne k v a hne d

theorem dictGet_insert_self (d : List (String × String)) (k v : String) :
    dictGet (dictInsert d k v) k = some v := by
  unfold dictInsert dictGet
  by_cases h : d.any (fun q => q.1 == k) = true
  · rw [if_pos h, find?_map_overwrite k v d h]
    rfl
  · rw [if_neg h, List.find?_append]
    have hnone : d.find? (fun q => q.1 == k) = none := by
      rw [List.find?_eq_none]
      intro x hx hpx
      exact h (List.any_eq_true.mpr ⟨x, hx, hpx⟩)
    rw [hnone]
    simp [List.find?]

theorem dictGet_insert_ne (d : List (String × String)) (k v a : String) (hne : a ≠ k) :
    dictGet (dictInsert d k v) a = dictGet d a := by
  unfold dictInsert dictGet
  by_cases h : d.any (fun q => q.1 == k) = true
  · rw [if_pos h, find?_map_ne k v a hne d]
  · rw [if_neg h, List.find?_append]
    have hka : (k == a) = false := beq_eq_false_iff_ne.mpr (fun heq => hne heq.symm)
    cases hf : d.find? (fun q => q.1 == a) with
    | some q => simp [hf]
    | none => simp [hf, List.find?, hka]

theorem pdmLoop_lookup (a : String) :
    ∀ (lines : List String) (inT : Bool) (acc : List (String × String)),
      dictGet (pdmLoop lines inT acc) a =
        (((pdmRowsLoop lines inT).reverse.find? (fun q => q.1 == a)).map Prod.snd).or
          (dictGet acc a)
  | [], inT, acc => by simp [pdmLoop, pdmRowsLoop]
  | line :: rest, inT, acc => by
    simp only [pdmLoop, pdmRowsLoop]
    by_cases h1 : occursB "| Alias |".data line.data = true
    · rw [if_pos h1, if_pos h1]
      exact pdmLoop_lookup a rest true acc
    · rw [if_neg h1, if_neg h1]
      cases inT with
      | false =>
        simp only [Bool.false_eq_true, if_false]
        exact pdmLoop_lookup a rest false acc
      | true =>
        simp only [if_true]
        by_cases h3 : pyStartsWith "|---" line = true
        · rw [if_pos h3, if_pos h3]
          exact pdmLoop_lookup a rest true acc
        · rw [if_neg h3, if_neg h3]
          by_cases h4 : ¬ pyStartsWith "|" line = true
          · rw [if_pos h4, if_pos h4]
            simp
          · rw [if_neg h4, if_neg h4]
            cases hp : parseRow line with
            | none =>
              simp only [hp]
              exact pdmLoop_lookup a rest true acc
            | some pr =>
              obtain ⟨r, p⟩ := pr
              simp only [hp]
              rw [pdmLoop_lookup a rest true (dictInsert acc r p)]
              rw [List.reverse_cons, List.find?_append]
              cases hf : (pdmRowsLoop rest true).reverse.find? (fun q => q.1 == a) with
              | some q => simp [hf]
              | none =>
                simp only [hf, Option.none_or]
                by_cases hra : (r == a) = true
                · have hr : r = a := by simpa using hra
                  subst hr
                  rw [dictGet_insert_self]
                  simp [List.find?, hra]
                · have hne : a ≠ r := fun heq => by simp [heq] at hra
                  rw [dictGet_insert_ne acc r p a hne]
                  simp [List.find?, hra]

/-! Claim theorems. -/

/-- C7: dispatching an empty file list performs no side effect — no process
launch, no state-directory creation, no write to the command descriptor —
regardless of the delivery mode and of the new-window flag. -/
theorem C7_dispatch_empty_noop (modeFile : Option String) (new_window : Bool) :
    open_in_vscode modeFile [] new_window = [] := by
  simp [open_in_vscode]

/-- C9: the comment scanner never returns an error status — its result record
has only the `repo`, `count` and `comments` fields; the result is independent
of the search tool's exit code and stderr, `repo` is the scanned repository
and `count` equals the number of parsed records. -/
theorem C9_comments_ignores_exit_code (repo out err err2 : String) (rc rc2 : Int) :
    cmd_comments repo { returncode := rc, stdout := out, stderr := err } =
      cmd_comments repo { returncode := rc2, stdout := out, stderr := err2 } ∧
    (cmd_comments repo { returncode := rc, stdout := out, stderr := err }).count =
      (cmd_comments repo { returncode := rc, stdout := out, stderr := err }).comments.length ∧
    (cmd_comments repo { returncode := rc, stdout := out, stderr := err }).repo = repo :=
  ⟨rfl, rfl, rfl⟩

/-- C3 (amended): for every `n < 1` the incremental strategy performs no range
validation and does not fail fast: its first version-control invocation is
the diff command with the base reference `HEAD~n` interpolated. -/
theorem C3_incremental_no_range_validation (git : List String → GitResult)
    (modeFile : Option String) (repo : String) (n : Int) (h : n < 1) :
    (cmd_incremental git modeFile repo n).gitCalls.head? =
      some ["diff", "--name-only", "HEAD~" ++ toString n] := by
  simp only [cmd_incremental]
  split
  · rfl
  · split
    · rfl
    · rfl

/-- C3 witness: the amended claim evaluated at `n = 0`. -/
theorem C3_incremental_no_range_validation_witness :
    (0 : Int) < 1 ∧
    (cmd_incremental gitEmpty none "/r" 0).gitCalls.head? =
      some ["diff", "--name-only", "HEAD~0"] := by
  refine ⟨by decide, ?_⟩
  have h := C3_incremental_no_range_validation gitEmpty none "/r" 0 (by decide)
  rw [h]
  decide

/-- C3 counterexample: with `n = 0 < 1` against a repository whose diff
succeeds with empty output, the incremental strategy invokes the diff command
(the git-call trace is non-empty) and reports `nothing_to_review`; it raises
no `InvalidRange` failure before invoking version control, contrary to the
claim that no version-control command is invoked for `n < 1`. -/
theorem C3_invalid_range_counterexample :
    (cmd_incremental gitEmpty none "/r" 0).gitCalls = [["diff", "--name-only", "HEAD~0"]] ∧
    (cmd_incremental gitEmpty none "/r" 0).result.status = "nothing_to_review" := by
  decide

/-- C1 (amended): the incremental strategy converts a failing diff invocation
into a `status="error"` record carrying the adapter's (stripped) stderr and
performs no editor dispatch; the milestone strategy converts a failing
merge-base invocation into a `status="error"` record with a fixed descriptive
message rather than the adapter's stderr.  The milestone diff command's exit
status is never inspected (see the counterexample); neither strategy lets
these failures escape as exceptions. -/
theorem C1_strategy_error_conversion :
    (∀ (git : List String → GitResult) (modeFile : Option String) (repo : String) (n : Int),
      (git ["diff", "--name-only", "HEAD~" ++ toString n]).returncode ≠ 0 →
      cmd_incremental git modeFile repo n =
        { result := { status := "error",
                      error := some (pyStrip (git ["diff", "--name-only",
                        "HEAD~" ++ toString n]).stderr),
                      repo := repo },
          gitCalls := [["diff", "--name-only", "HEAD~" ++ toString n]] }) ∧
    (∀ (git : List String → GitResult) (modeFile : Option String) (repo branch : String),
      (git ["merge-base", "HEAD", branch]).returncode ≠ 0 →
      cmd_milestone git modeFile repo branch =
        some { result := { status := "error",
                           error := some ("Could not find merge base with " ++ branch),
                           repo := repo },
               gitCalls := [["merge-base", "HEAD", branch]] }) := by
  constructor
  · intro git modeFile repo n h
    simp only [cmd_incremental]
    rw [if_pos h]
  · intro git modeFile repo branch h
    simp only [cmd_milestone]
    rw [if_pos h]

/-- C1 witness: both conversions evaluated against an adapter whose every
invocation fails with stderr `" boom \n"`. -/
theorem C1_strategy_error_conversion_witness :
    (gitFails ["diff", "--name-only", "HEAD~1"]).returncode ≠ 0 ∧
    cmd_incremental gitFails none "/r" 1 =
      { result := { status := "error", error := some "boom", repo := "/r" },
        gitCalls := [["diff", "--name-only", "HEAD~1"]] } ∧
    cmd_milestone gitFails none "/r" "main" =
      some { result := { status := "error",
                         error := some "Could not find merge base with main", repo := "/r" },
             gitCalls := [["merge-base", "HEAD", "main"]] } := by
  refine ⟨by decide, ?_, ?_⟩
  · have h := C1_strategy_error_conversion.1 gitFails none "/r" 1 (by decide)
    rw [h]
    decide
  · have h := C1_strategy_error_conversion.2 gitFails none "/r" "main" (by decide)
    rw [h]
    decide

/-- C1 counterexample: with adapter `gitDiffFails` the milestone diff command
fails (exit 128, stderr `fatal: bad object`), yet the milestone strategy
reports `status="nothing_to_review"` — not `status="error"` carrying that
stderr — because it never inspects the diff exit status. -/
theorem C1_milestone_diff_failure_counterexample :
    (gitDiffFails ["diff", "--name-only", "abcdef1234567890"]).returncode = 128 ∧
    (gitDiffFails ["diff", "--name-only", "abcdef1234567890"]).stderr = "fatal: bad object\n" ∧
    (cmd_milestone gitDiffFails none "/r" "main").map Outcome.result =
      some { status := "nothing_to_review", base := some "main",
             merge_base := some "abcdef12", repo := "/r" } := by
  decide

/-- C4: for every result returned by the incremental or milestone strategy,
`files` is non-empty whenever `status = "staged"`, and
`status = "nothing_to_review"` implies `files` is empty. -/
theorem C4_files_status_invariant :
    (∀ (git : List String → GitResult) (modeFile : Option String) (repo : String) (n : Int),
      ((cmd_incremental git modeFile repo n).result.status = "staged" →
        (cmd_incremental git modeFile repo n).result.files ≠ []) ∧
      ((cmd_incremental git modeFile repo n).result.status = "nothing_to_review" →
        (cmd_incremental git modeFile repo n).result.files = [])) ∧
    (∀ (git : List String → GitResult) (modeFile : Option String) (repo branch : String)
      (o : Outcome), cmd_milestone git modeFile repo branch = some o →
      (o.result.status = "staged" → o.result.files ≠ []) ∧
      (o.result.status = "nothing_to_review" → o.result.files = [])) := by
  constructor
  · intro git modeFile repo n
    simp only [cmd_incremental]
    split
    · exact ⟨fun h => absurd (show ("error" : String) = "staged" from h) (by decide),
        fun h => absurd (show ("error" : String) = "nothing_to_review" from h) (by decide)⟩
    · split
      · exact ⟨fun h => absurd (show ("nothing_to_review" : String) = "staged" from h) (by decide),
          fun _ => rfl⟩
      · rename_i hfiles
        exact ⟨fun _ => hfiles,
          fun h => absurd (show ("staged" : String) = "nothing_to_review" from h) (by decide)⟩
  · intro git modeFile repo branch o h
    simp only [cmd_milestone] at h
    split at h
    · injection h with h2
      subst h2
      exact ⟨fun h => absurd (show ("error" : String) = "staged" from h) (by decide),
        fun h => absurd (show ("error" : String) = "nothing_to_review" from h) (by decide)⟩
    · split at h
      · exact Option.noConfusion h
      · split at h
        · injection h with h2
          subst h2
          exact ⟨fun h => absurd (show ("nothing_to_review" : String) = "staged" from h) (by decide),
            fun _ => rfl⟩
        · rename_i hfiles
          injection h with h2
          subst h2
          exact ⟨fun _ => hfiles,
            fun h => absurd (show ("staged" : String) = "nothing_to_review" from h) (by decide)⟩

/-- C4 witness: both directions evaluated — a run with no changes yields an
empty `files`, a staged run yields a non-empty `files`. -/
theorem C4_files_status_invariant_witness :
    (cmd_incremental gitEmpty none "/r" 1).result.files = [] ∧
    ((cmd_milestone gitOk none "/r" "main").getD {}).result.files ≠ [] := by
  constructor
  · exact (C4_files_status_invariant.1 gitEmpty none "/r" 1).2 (by decide)
  · exact (C4_files_status_invariant.2 gitOk none "/r" "main"
      ((cmd_milestone gitOk none "/r" "main").getD {}) (by decide)).1 (by decide)

/-- C5: whenever the milestone strategy's computed file list is empty (after a
successful merge-base query), the result has `status="nothing_to_review"`,
carries the 8-character truncation of the merge-base identifier, has no
`commit_count` field — and yet the commit-count query was issued. -/
theorem C5_milestone_empty_omits_commit_count (git : List String → GitResult)
    (modeFile : Option String) (repo branch : String) (o : Outcome)
    (h1 : (git ["merge-base", "HEAD", branch]).returncode = 0)
    (h2 : gitLines (git ["diff", "--name-only",
      pyStrip (git ["merge-base", "HEAD", branch]).stdout]).stdout = [])
    (h3 : cmd_milestone git modeFile repo branch = some o) :
    o.result.status = "nothing_to_review" ∧
    o.result.merge_base = some (takeS 8 (pyStrip (git ["merge-base", "HEAD", branch]).stdout)) ∧
    o.result.commit_count = none ∧
    ["rev-list", "--count",
      pyStrip (git ["merge-base", "HEAD", branch]).stdout ++ "..HEAD"] ∈ o.gitCalls := by
  simp only [cmd_milestone] at h3
  rw [if_neg (by simp [h1])] at h3
  split at h3
  · exact Option.noConfusion h3
  · rw [if_pos h2] at h3
    injection h3 with h4
    subst h4
    refine ⟨rfl, rfl, rfl, ?_⟩
    simp

/-- C5 witness: the theorem applied at a concrete adapter whose diff output at
the merge base is empty. -/
theorem C5_milestone_empty_omits_commit_count_witness :
    ((cmd_milestone gitDiffFails none "/r" "main").getD {}).result.commit_count = none ∧
    ((cmd_milestone gitDiffFails none "/r" "main").getD {}).result.merge_base =
      some "abcdef12" := by
  have h := C5_milestone_empty_omits_commit_count gitDiffFails none "/r" "main"
    ((cmd_milestone gitDiffFails none "/r" "main").getD {}) (by decide) (by decide) (by decide)
  refine ⟨h.2.2.1, ?_⟩
  rw [h.2.1]
  decide

/-- C8: invoked against the same repository state (the same deterministic
adapter) and the same target branch, the milestone strategy and the stack
reporter carry identical `merge_base` fields — both the 8-character
truncation of the answer to the same merge-base query. -/
theorem C8_merge_base_agreement (git : List String → GitResult)
    (modeFile : Option String) (repo branch : String) (o : Outcome)
    (h : cmd_milestone git modeFile repo branch = some o) :
    o.result.merge_base = (cmd_stack git repo branch).result.merge_base := by
  simp only [cmd_milestone] at h
  simp only [cmd_stack]
  split at h
  · rename_i hrc
    injection h with h2
    subst h2
    rw [if_pos hrc]
  · rename_i hrc
    rw [if_neg hrc]
    split at h
    · exact Option.noConfusion h
    · split at h
      · injection h with h2
        subst h2
        rfl
      · injection h with h2
        subst h2
        rfl

/-- C8 witness: the agreement evaluated at a fully successful adapter. -/
theorem C8_merge_base_agreement_witness :
    ((cmd_milestone gitOk none "/r" "main").getD {}).result.merge_base =
      (cmd_stack gitOk "/r" "main").result.merge_base := by
  exact C8_merge_base_agreement gitOk none "/r" "main"
    ((cmd_milestone gitOk none "/r" "main").getD {}) (by decide)

/-- C6: repository-alias resolution follows the first-match-wins order —
(1) table entry, (2) existing filesystem path returned canonicalized,
(3) failure for any other non-empty alias, (4) the active task's first
repository name when it is in the table, (5) the current working directory —
and it fails exactly when a non-empty alias is supplied that is neither a
table entry nor an existing path. -/
theorem C6_resolve_repo_order (aliases : String → Option String) (pe : String → Bool)
    (canon : String → String) (tr : List String) (cwd : String) :
    (∀ a p, a ≠ "" → aliases a = some p →
      resolve_repo aliases pe canon tr cwd (some a) = Except.ok p) ∧
    (∀ a, a ≠ "" → aliases a = none → pe a = true →
      resolve_repo aliases pe canon tr cwd (some a) = Except.ok (canon a)) ∧
    (∀ a, a ≠ "" → aliases a = none → pe a = false →
      resolve_repo aliases pe canon tr cwd (some a) =
        Except.error ("Unknown repo alias: " ++ a)) ∧
    (∀ al r p, (al = none ∨ al = some "") → tr.head? = some r → aliases r = some p →
      resolve_repo aliases pe canon tr cwd al = Except.ok p) ∧
    (∀ al, (al = none ∨ al = some "") →
      (tr = [] ∨ ∃ r rs, tr = r :: rs ∧ aliases r = none) →
      resolve_repo aliases pe canon tr cwd al = Except.ok cwd) ∧
    (∀ al, (∃ e, resolve_repo aliases pe canon tr cwd al = Except.error e) ↔
      (∃ a, al = some a ∧ a ≠ "" ∧ aliases a = none ∧ pe a = false)) := by
  refine ⟨?_, ?_, ?_, ?_, ?_, ?_⟩
  · intro a p ha hl
    simp [resolve_repo, ha, hl]
  · intro a ha hl hpe
    simp [resolve_repo, ha, hl, hpe]
  · intro a ha hl hpe
    simp [resolve_repo, ha, hl, hpe]
  · intro al r p hal hh hl
    cases tr with
    | nil => exact absurd hh (by simp)
    | cons t ts =>
      have ht : t = r := by simpa using hh
      subst ht
      rcases hal with rfl | rfl <;> simp [resolve_repo, hl]
  · intro al hal htr
    rcases hal with rfl | rfl
    · rcases htr with rfl | ⟨r, rs, rfl, hnone⟩
      · simp [resolve_repo]
      · simp [resolve_repo, hnone]
    · rcases htr with rfl | ⟨r, rs, rfl, hnone⟩
      · simp [resolve_repo]
      · simp [resolve_repo, hnone]
  · intro al
    constructor
    · rintro ⟨e, he⟩
      cases al with
      | none =>
        exfalso
        cases tr with
        | nil => simp [resolve_repo] at he
        | cons t ts =>
          cases hl : aliases t with
          | some p => simp [resolve_repo, hl] at he
          | none => simp [resolve_repo, hl] at he
      | some a =>
        by_cases ha : a = ""
        · subst ha
          exfalso
          cases tr with
          | nil => simp [resolve_repo] at he
          | cons t ts =>
            cases hl : aliases t with
            | some p => simp [resolve_repo, hl] at he
            | none => simp [resolve_repo, hl] at he
        · cases hl : aliases a with
          | some p => simp [resolve_repo, ha, hl] at he
          | none =>
            cases hpe : pe a with
            | true => simp [resolve_repo, ha, hl, hpe] at he
            | false => exact ⟨a, rfl, ha, hl, hpe⟩
    · rintro ⟨a, rfl, ha, hl, hpe⟩
      exact ⟨"Unknown repo alias: " ++ a, by simp [resolve_repo, ha, hl, hpe]⟩

/-- C6 witness: rule (1) evaluated at a one-entry table. -/
theorem C6_resolve_repo_order_witness :
    resolve_repo (fun a => if a = "x" then some "/px" else none) (fun _ => false) id []
      "/cwd" (some "x") = Except.ok "/px" := by
  exact (C6_resolve_repo_order (fun a => if a = "x" then some "/px" else none)
    (fun _ => false) id [] "/cwd").1 "x" "/px" (by decide) (by simp)

/-- C10: the parsed alias table maps each alias to the path of the LAST
accepted row carrying that alias — later rows overwrite earlier ones — and
resolution of such an alias returns that last row's path. -/
theorem C10_alias_table_last_wins :
    (∀ (doc : Option String) (a : String),
      dictGet (parse_directory_map doc) a =
        ((pdmRows doc).reverse.find? (fun q => q.1 == a)).map Prod.snd) ∧
    (∀ (doc : Option String) (a : String) (pe : String → Bool) (canon : String → String)
      (tr : List String) (cwd : String) (pr : String × String), a ≠ "" →
      (pdmRows doc).reverse.find? (fun q => q.1 == a) = some pr →
      resolve_repo (dictGet (parse_directory_map doc)) pe canon tr cwd (some a) =
        Except.ok pr.2) := by
  have h1 : ∀ (doc : Option String) (a : String),
      dictGet (parse_directory_map doc) a =
        ((pdmRows doc).reverse.find? (fun q => q.1 == a)).map Prod.snd := by
    intro doc a
    cases doc with
    | none => rfl
    | some content =>
      simp only [parse_directory_map, pdmRows]
      rw [pdmLoop_lookup a (pySplit '\n' content) false []]
      rw [show dictGet ([] : List (String × String)) a = none from rfl, Option.or_none]
  refine ⟨h1, ?_⟩
  intro doc a pe canon tr cwd pr ha hf
  have hl : dictGet (parse_directory_map doc) a = some pr.2 := by
    rw [h1 doc a, hf]
    rfl
  simp [resolve_repo, ha, hl]

/-- C10 witness: in a document whose table contains `iree → /old` and then
`iree → /new`, resolution of `iree` returns `/new`. -/
theorem C10_alias_table_last_wins_witness :
    resolve_repo (dictGet (parse_directory_map (some dupDoc))) (fun _ => false) id [] "/cwd"
      (some "iree") = Except.ok "/new" := by
  exact C10_alias_table_last_wins.2 (some dupDoc) "iree" (fun _ => false) id [] "/cwd"
    ("iree", "/new") (by decide) (by decide)

/-- Helper for C2: in the scanner the captured comment runs to the end of the
already-stripped content, so dropping its leading whitespace coincides with a
full strip. -/
theorem comment_trimmed (s : String) (pre m rest : List Char)
    (heq : (pyStrip s).data = pre ++ (m ++ rest)) :
    pyStrip (String.mk rest) = String.mk (rest.dropWhile pyIsSpace) := by
  have h0 := noTrail_pyStripL s.data
  rw [show pyStripL s.data = (pyStrip s).data from rfl, heq,
    show pre ++ (m ++ rest) = (pre ++ m) ++ rest from (List.append_assoc pre m rest).symm] at h0
  have hnt := noTrail_suffix _ _ h0
  unfold pyStrip
  rw [show (String.mk rest).data = rest from rfl, pyStripL_eq_dropWhile rest hnt]

/-- C2 (amended): every grep line whose content carries an annotation marker
yields exactly one record; `RVWY:` takes priority over `RVW:` regardless of
position on the line — the comment is the text after the FIRST occurrence of
`RVWY:` whenever that marker occurs anywhere in the content (with
`yolo = true`), and only otherwise the text after the first occurrence of
`RVW:` (with `yolo = false`); in both cases the comment is trimmed of leading
and trailing whitespace. -/
theorem C2_scanner_marker_priority (repo line path : String) (ln : Nat) (rest0 : String)
    (hparse : parseGrepLine line = some (path, ln, rest0)) :
    (∀ pre rest, (pyStrip rest0).data = pre ++ ("RVWY:".data ++ rest) →
      (∀ p2 r2, (pyStrip rest0).data = p2 ++ ("RVWY:".data ++ r2) → pre.length ≤ p2.length) →
      processGrepLine repo line =
        some { file := repo ++ "/" ++ path, relative_path := path, line := ln,
               raw := pyStrip rest0, comment := pyStrip (String.mk rest), yolo := true }) ∧
    ((∀ p2 r2, (pyStrip rest0).data ≠ p2 ++ ("RVWY:".data ++ r2)) →
      ∀ pre rest, (pyStrip rest0).data = pre ++ ("RVW:".data ++ rest) →
      (∀ p2 r2, (pyStrip rest0).data = p2 ++ ("RVW:".data ++ r2) → pre.length ≤ p2.length) →
      processGrepLine repo line =
        some { file := repo ++ "/" ++ path, relative_path := path, line := ln,
               raw := pyStrip rest0, comment := pyStrip (String.mk rest), yolo := false }) := by
  have hyM : ("RVWY:".data : List Char) ≠ [] := by decide
  have hwM : ("RVW:".data : List Char) ≠ [] := by decide
  constructor
  · intro pre rest heq hmin
    have hsearch : reSearchAfter "RVWY:".data (pyStrip rest0).data =
        some (rest.dropWhile pyIsSpace) := by
      rw [heq]
      exact reSearchAfter_first "RVWY:".data hyM pre rest
        (fun p2 r2 h => hmin p2 r2 (heq.trans h))
    have hcomment := comment_trimmed rest0 pre "RVWY:".data rest heq
    simp only [processGrepLine, hparse, classifyContent, hsearch]
    rw [hcomment]
  · intro hno pre rest heq hmin
    have hnone : reSearchAfter "RVWY:".data (pyStrip rest0).data = none :=
      reSearchAfter_none "RVWY:".data hyM _ hno
    have hsearch : reSearchAfter "RVW:".data (pyStrip rest0).data =
        some (rest.dropWhile pyIsSpace) := by
      rw [heq]
      exact reSearchAfter_first "RVW:".data hwM pre rest
        (fun p2 r2 h => hmin p2 r2 (heq.trans h))
    have hcomment := comment_trimmed rest0 pre "RVW:".data rest heq
    simp only [processGrepLine, hparse, classifyContent, hnone, hsearch]
    rw [hcomment]

/-- C2 witness: the RVWY branch of the theorem evaluated on the grep line
`./a.py:3:RVWY: fix`. -/
theorem C2_scanner_marker_priority_witness :
    processGrepLine "/r" "./a.py:3:RVWY: fix" =
      some { file := "/r/a.py", relative_path := "a.py", line := 3,
             raw := "RVWY: fix", comment := "fix", yolo := true } := by
  have h := (C2_scanner_marker_priority "/r" "./a.py:3:RVWY: fix" "a.py" 3 "RVWY: fix"
    (by decide)).1 [] (" fix".data) (by decide) (fun p2 r2 _ => Nat.zero_le _)
  rw [h]
  decide

/-- C2 counterexample: on the line content `RVW: a RVWY: b` the earliest
recognized marker is `RVW:` (at offset 0) and the trimmed text following it
is `a RVWY: b`, but the scanner yields the record for the later `RVWY:`
marker with comment `b` — so the comment is NOT the text following the
earliest recognized marker on the line, refuting the claim as stated. -/
theorem C2_earliest_marker_counterexample :
    ("RVW: a RVWY: b" : String).data =
      [] ++ ("RVW:".data ++ " a RVWY: b".data) ∧
    processGrepLine "/r" "./f.py:7:RVW: a RVWY: b" =
      some { file := "/r/f.py", relative_path := "f.py", line := 7,
             raw := "RVW: a RVWY: b", comment := "b", yolo := true } ∧
    ("b" : String) ≠ pyStrip " a RVWY: b" := by
  refine ⟨by decide, by decide, by decide⟩
